import Mathlib

/-!
Verification of the dial-alignment core of the international impulse clock
controller (`international_clock_daemon_web.py`).

The controller keeps `offset_minutes` such that
`dial = (system + offset) mod 720`, plans stall/advance corrections,
runs a per-minute cadence with an hourly 17-pulse correction burst,
and drives a cancellable fast-set convergence session.

The embedding below translates the Python source into pure Lean
functions: the mutable `State` dataclass becomes the `ClockState`
record threaded explicitly, the two relay outputs become booleans
recording the level each pulse leaves behind, wall-clock readings
become explicit `DateTime` arguments, and the fast-set loop takes an
environment stream supplying the time readings and externally injected
cancel requests that the real loop observes each iteration.
-/

/-- Number of A pulses in the hourly correction burst (`CORRECTION_PULSES`). -/
def CORRECTION_PULSES : Nat := 17

/-- Safety cap on pulses sent by one fast-set session (`FAST_SET_MAX_PULSES`). -/
def FAST_SET_MAX_PULSES : Nat := 400

/-- Safety cap, in seconds, on wall-clock time spent in fast set
(`FAST_SET_MAX_SECONDS = 40 * 60`). -/
def FAST_SET_MAX_SECONDS : Nat := 40 * 60

/-- Calendar instant as read by `datetime.datetime.now()`; only the fields the
core consults are modelled. -/
structure DateTime where
  year : Nat
  month : Nat
  day : Nat
  hour : Nat
  minute : Nat
deriving DecidableEq, Repr

/-- The dedupe key used for minute ticks: `(Y, M, D, H, MIN)`. -/
def minuteKey (dt : DateTime) : Nat × Nat × Nat × Nat × Nat :=
  (dt.year, dt.month, dt.day, dt.hour, dt.minute)

/-- The dedupe key used for the hourly correction burst: `(Y, M, D, H)`. -/
def hourKey (dt : DateTime) : Nat × Nat × Nat × Nat :=
  (dt.year, dt.month, dt.day, dt.hour)

/-- The shared mutable `State` dataclass, extended with the levels the two
relay outputs are left at (`False` = de-energized, the initial value of both
`gpiozero.OutputDevice`s). -/
structure ClockState where
  offset_minutes : Int
  has_offset : Bool
  last_minute_tick : Option (Nat × Nat × Nat × Nat × Nat)
  last_correction_hour : Option (Nat × Nat × Nat × Nat)
  stall_remaining_minutes : Int
  fast_set_requested : Bool
  fast_set_running : Bool
  fast_set_cancel_requested : Bool
  fast_set_status : String
  relayA : Bool
  relayB : Bool
deriving DecidableEq, Repr

/-- The default-constructed `State()`: all counters zero, all flags false. -/
def initialState : ClockState :=
  { offset_minutes := 0
    has_offset := false
    last_minute_tick := none
    last_correction_hour := none
    stall_remaining_minutes := 0
    fast_set_requested := false
    fast_set_running := false
    fast_set_cancel_requested := false
    fast_set_status := "Idle"
    relayA := false
    relayB := false }

/-- Model of `all_relays_off()`: force both outputs off. -/
def all_relays_off (s : ClockState) : ClockState :=
  { s with relayA := false, relayB := false }

/-- Model of `pulse_a`: relay A on, sleep, relay A off — the pulse leaves A off. -/
def pulse_a (s : ClockState) : ClockState :=
  { s with relayA := false }

/-- Model of `pulse_b`: relay B on, sleep, relay B off — the pulse leaves B off. -/
def pulse_b (s : ClockState) : ClockState :=
  { s with relayB := false }

/-- Model of `pulse_ab`: both relays on, sleep, both off — the pulse leaves both off. -/
def pulse_ab (s : ClockState) : ClockState :=
  { s with relayA := false, relayB := false }

/-- Model of `to_12h_minutes(dt) = ((dt.hour * 60) + dt.minute) % 720`. -/
def to_12h_minutes (dt : DateTime) : Int :=
  ((dt.hour * 60 : Nat) + dt.minute : Nat) % 720

/-- Model of `current_estimated_dial_minutes(now)`: system minutes plus the recorded
offset mod 720 when an offset is known, otherwise the system minutes. -/
def current_estimated_dial_minutes (now : DateTime) (s : ClockState) : Int :=
  if s.has_offset then (to_12h_minutes now + s.offset_minutes) % 720
  else to_12h_minutes now

/-- Model of `set_dial_reading(hh, mm)`: record
`offset = ((hh*60+mm) % 720 - system) % 720`, mark the offset known and clear
any pending stall. -/
def set_dial_reading (hh mm : Nat) (now : DateTime) (s : ClockState) : ClockState :=
  let sys_m := to_12h_minutes now
  let dial_m : Int := ((hh * 60 + mm : Nat) : Int) % 720
  let offset := (dial_m - sys_m) % 720
  { s with offset_minutes := offset, has_offset := true, stall_remaining_minutes := 0 }

/-- The planner's `delta_forward = (sys_m - dial_m) % 720`: minutes the dial
must move forward to match system time. -/
def delta_forward (now : DateTime) (s : ClockState) : Int :=
  (to_12h_minutes now - current_estimated_dial_minutes now s) % 720

/-- Model of `compute_fast_or_stall_plan()`: returns `(stall_minutes, advance_minutes)`;
aligned when `delta_forward = 0`, stall by `720 - delta_forward` when
`delta_forward > 360`, otherwise advance by `delta_forward`. -/
def compute_fast_or_stall_plan (now : DateTime) (s : ClockState) : Int × Int :=
  let d := delta_forward now s
  if d = 0 then (0, 0)
  else if d > 360 then (720 - d, 0)
  else (0, d)

/-- Model of `update_offset_after_stall_or_advance(stalled, advanced)`: no-op when both
arguments are zero or no offset is known; otherwise renormalize
`offset = (offset - stalled + advanced) % 720`. -/
def update_offset_after_stall_or_advance (stalled advanced : Int) (s : ClockState) : ClockState :=
  if stalled = 0 ∧ advanced = 0 then s
  else if ¬ s.has_offset then s
  else { s with offset_minutes := (s.offset_minutes - stalled + advanced) % 720 }

/-- Model of `restore_state()`: `none` models a missing or unreadable state file (the
state is left untouched); `some (o, h)` models a parsed record, whose offset is
renormalized `% 720` on load. -/
def restore_state (data : Option (Int × Bool)) (s : ClockState) : ClockState :=
  match data with
  | none => s
  | some (o, h) => { s with offset_minutes := o % 720, has_offset := h }

/-- Model of `run_correction_burst_once_per_hour(now)`: no-op unless `now.minute = 59`
and the burst has not yet fired in this calendar hour; otherwise record the
hour key and emit `CORRECTION_PULSES` A-only pulses (each leaving relay A
de-energized). The second component is the number of pulses emitted. -/
def run_correction_burst_once_per_hour (now : DateTime) (s : ClockState) : ClockState × Nat :=
  if now.minute ≠ 59 then (s, 0)
  else if s.last_correction_hour = some (hourKey now) then (s, 0)
  else ({ s with last_correction_hour := some (hourKey now), relayA := false },
    CORRECTION_PULSES)

/-- Model of `minute_tick_actions(now)`: dedupe by minute key; skip while fast set is
running; consume one stall minute (no A/B pulses) when stalling, else pulse A
and, through minute 49, pulse B; at minute 59 attempt the hourly burst. The
second component is the number of correction-burst pulses emitted. -/
def minute_tick_actions (now : DateTime) (s : ClockState) : ClockState × Nat :=
  if s.last_minute_tick = some (minuteKey now) then (s, 0)
  else
    let s1 := { s with last_minute_tick := some (minuteKey now) }
    if s1.fast_set_running then (s1, 0)
    else if 0 < s1.stall_remaining_minutes then
      let s2 := { s1 with stall_remaining_minutes := s1.stall_remaining_minutes - 1 }
      let s3 := update_offset_after_stall_or_advance 1 0 s2
      if now.minute = 59 then run_correction_burst_once_per_hour now s3 else (s3, 0)
    else
      let s4 := pulse_a s1
      let s5 := if now.minute ≤ 49 then pulse_b s4 else s4
      if now.minute = 59 then run_correction_burst_once_per_hour now s5 else (s5, 0)

/-- Model of `pulse_test` targets: the four buttons of the web test form. -/
inductive TestTarget where
  | A
  | B
  | AB
  | CORR
deriving DecidableEq, Repr

/-- The `pulse_test` handler: an ad-hoc single pulse on A, B, or A+B, or the
`CORR` branch, which calls `run_correction_burst_once_per_hour` on the current
time with its minute replaced by 59. The second component is the number of
correction-burst pulses emitted. -/
def pulse_test (which : TestTarget) (now : DateTime) (s : ClockState) : ClockState × Nat :=
  match which with
  | .A => (pulse_a s, 0)
  | .B => (pulse_b s, 0)
  | .AB => (pulse_ab s, 0)
  | .CORR => run_correction_burst_once_per_hour { now with minute := 59 } s

/-- Number of correction bursts fired over a sequence of minute-tick
invocations (each burst is `CORRECTION_PULSES` pulses, so an invocation fires
a burst exactly when its pulse count is nonzero). -/
def minuteTicksBurstCount : List DateTime → ClockState → Nat
  | [], _ => 0
  | t :: ts, s =>
    (if (minute_tick_actions t s).2 ≠ 0 then 1 else 0) +
      minuteTicksBurstCount ts (minute_tick_actions t s).1

/-- Iterated `update_offset_after_stall_or_advance(stalled=0, advanced=1)`:
one call per fast-set pulse. -/
def applyAdvances : Nat → ClockState → ClockState
  | 0, s => s
  | n + 1, s => applyAdvances n (update_offset_after_stall_or_advance 0 1 s)

/-- The three operations that may write `offset_minutes`. -/
inductive StateOp where
  | setDial (hh mm : Nat) (now : DateTime)
  | updateOffset (stalled advanced : Int)
  | restore (data : Option (Int × Bool))

/-- Apply one offset-mutating operation. -/
def applyOp : StateOp → ClockState → ClockState
  | .setDial hh mm now, s => set_dial_reading hh mm now s
  | .updateOffset st ad, s => update_offset_after_stall_or_advance st ad s
  | .restore d, s => restore_state d s

/-- Apply a sequence of offset-mutating operations, left to right. -/
def applyOps : List StateOp → ClockState → ClockState
  | [], s => s
  | op :: rest, s => applyOps rest (applyOp op s)

/-- What one iteration of the fast-set loop observes from its environment:
the elapsed monotonic seconds since the session started, whether the web
thread set the cancel flag since the last iteration, and the wall-clock
reading used to recompute the plan. -/
structure IterEnv where
  elapsed : Nat
  cancelArrived : Bool
  now : DateTime
deriving Repr

/-- How one call of `maybe_handle_fast_set` ended. `notStarted` is the early
return of the entry guard (no pending request, or a session already running);
`fuelOut` is the artificial out-of-fuel result of the bounded loop model,
proved unreachable for fuel above the pulse cap. -/
inductive FastSetOutcome where
  | notStarted
  | completed
  | alreadyAligned
  | stalling
  | cancelled
  | errTimeout
  | errPulseCap
  | fuelOut
deriving DecidableEq, Repr

/-- The `while True` body of the fast-set session. Iteration `i` reads
`env i`; `pulses_sent` counts A+B pulses so far. Mirrors the source order:
timeout check, cancel check, fresh plan, stall hand-off, completion, pulse
cap, then one A+B pulse, one advance bookkeeping update, and the periodic
status refresh. -/
def fastSetLoop (env : Nat → IterEnv) : Nat → Nat → Nat → ClockState → FastSetOutcome × ClockState
  | 0, _, _, s => (.fuelOut, s)
  | fuel + 1, i, pulses_sent, s0 =>
    let e := env i
    let s := { s0 with
      fast_set_cancel_requested := s0.fast_set_cancel_requested || e.cancelArrived }
    if e.elapsed > FAST_SET_MAX_SECONDS then (.errTimeout, s)
    else if s.fast_set_cancel_requested then
      (.cancelled, all_relays_off { s with fast_set_status := "FAST SET cancelled by user." })
    else
      let p := compute_fast_or_stall_plan e.now s
      if p.1 > 0 then
        (.stalling,
          { s with
              stall_remaining_minutes := p.1
              fast_set_status :=
                "Dial is " ++ toString p.1 ++ " min fast: will STALL until aligned." })
      else if p.2 = 0 then
        (.completed,
          { s with
              fast_set_status :=
                "FAST SET complete (pulses sent: " ++ toString pulses_sent ++ ")." })
      else if pulses_sent ≥ FAST_SET_MAX_PULSES then (.errPulseCap, s)
      else
        let s1 := update_offset_after_stall_or_advance 0 1 (pulse_ab s)
        let s2 := if (pulses_sent + 1) % 10 = 0 then
            { s1 with fast_set_status := "Advancing... pulses=" ++ toString (pulses_sent + 1) }
          else s1
        fastSetLoop env fuel (i + 1) (pulses_sent + 1) s2

/-- The `try` block of `maybe_handle_fast_set`: one plan computed up front
(using `env 0`), with immediate stall hand-off or already-aligned return,
otherwise the dynamic loop starting at iteration 1. -/
def fastSetTry (fuel : Nat) (env : Nat → IterEnv) (s : ClockState) : FastSetOutcome × ClockState :=
  let p := compute_fast_or_stall_plan (env 0).now s
  if p.1 > 0 then
    (.stalling,
      { s with
          stall_remaining_minutes := p.1
          fast_set_status :=
            "Dial is " ++ toString p.1 ++ " min fast: will STALL until aligned." })
  else if p.2 = 0 then (.alreadyAligned, { s with fast_set_status := "Already aligned (no action)." })
  else fastSetLoop env fuel 1 0 { s with fast_set_status := "FAST SET running (dynamic)..." }

/-- The `except`/`finally` tail of `maybe_handle_fast_set`: record an error
status for the two raised termination conditions, then unconditionally clear
`fast_set_running` and `fast_set_cancel_requested` and force both relays
off. -/
def fastSetFinalize (p : FastSetOutcome × ClockState) : FastSetOutcome × ClockState :=
  let s := if p.1 = .errTimeout ∨ p.1 = .errPulseCap then
      { p.2 with fast_set_status := "FAST SET error" } else p.2
  (p.1, all_relays_off { s with fast_set_running := false, fast_set_cancel_requested := false })

/-- Model of `maybe_handle_fast_set()`: return immediately unless a request is pending
and no session is running; otherwise claim the request (clearing `requested`
and `cancelRequested`, setting `running`) and run the session to a terminal
state, always passing through the `finally` clean-up. -/
def maybe_handle_fast_set (fuel : Nat) (env : Nat → IterEnv) (s : ClockState) :
    FastSetOutcome × ClockState :=
  if ¬ s.fast_set_requested ∨ s.fast_set_running then (.notStarted, s)
  else
    fastSetFinalize (fastSetTry fuel env
      { s with
          fast_set_requested := false
          fast_set_running := true
          fast_set_cancel_requested := false
          fast_set_status := "Starting..." })

/-- The web `fast_set` handler: unconditionally set `fast_set_requested`,
clear `fast_set_cancel_requested`, and overwrite the status text. -/
def fast_set (s : ClockState) : ClockState :=
  { s with
      fast_set_requested := true
      fast_set_cancel_requested := false
      fast_set_status := "FAST SET requested..." }

/-- The web `stop_correction` handler: set `fast_set_cancel_requested`, clear
`fast_set_requested`, overwrite the status text, and force both outputs
off. -/
def stop_correction (s : ClockState) : ClockState :=
  all_relays_off
    { s with
        fast_set_cancel_requested := true
        fast_set_requested := false
        fast_set_status := "STOP requested..." }

/-- Acquisitions and releases of the one shared `LOCK`, in program order. -/
inductive LockEvent where
  | acq
  | rel
deriving DecidableEq, Repr

/-- Lock events of `persist_state()`: one critical section snapshotting the
state before the file write. -/
def persistTrace : List LockEvent := [.acq, .rel]

/-- Lock events of `update_offset_after_stall_or_advance`: nothing on the
both-zero early return, otherwise one critical section, followed by the
persist only when an offset was known. -/
def updateOffsetTrace (stalled advanced : Int) (s : ClockState) : List LockEvent :=
  if stalled = 0 ∧ advanced = 0 then []
  else if ¬ s.has_offset then [.acq, .rel]
  else [.acq, .rel] ++ persistTrace

/-- Lock events of `run_correction_burst_once_per_hour`: nothing unless
minute is 59, otherwise one critical section for the hour-key check (the
pulses themselves do not touch the lock). -/
def runBurstTrace (now : DateTime) : List LockEvent :=
  if now.minute ≠ 59 then [] else [.acq, .rel]

/-- Lock events of `minute_tick_actions`. In the dedupe, fast-set-skip, and
stall branches the function returns from inside its `with LOCK:` block; in
the stall branch it calls `update_offset_after_stall_or_advance` and (at
minute 59) `run_correction_burst_once_per_hour` while still holding the
lock. In the normal branch the pulses and the burst run after the lock is
released. -/
def minuteTickTrace (now : DateTime) (s : ClockState) : List LockEvent :=
  if s.last_minute_tick = some (minuteKey now) then [.acq, .rel]
  else if s.fast_set_running then [.acq, .rel]
  else if 0 < s.stall_remaining_minutes then
    .acq :: (updateOffsetTrace 1 0 s ++
      (if now.minute = 59 then runBurstTrace now else []) ++ [.rel])
  else [.acq, .rel] ++ (if now.minute = 59 then runBurstTrace now else [])

/-- Nested-acquisition detector: `hasNested tr d = true` iff, starting from `d` outstanding acquisitions,
some `acq` in `tr` happens while at least one acquisition is outstanding —
i.e. the non-reentrant lock is taken while already held. -/
def hasNested : List LockEvent → Nat → Bool
  | [], _ => false
  | .acq :: t, d => decide (0 < d) || hasNested t (d + 1)
  | .rel :: t, d => hasNested t (d - 1)

/-- Claim C1: for every call time, `compute_fast_or_stall_plan` returns
`(0,0)` when `delta = (systemMinutes - dialMinutes) mod 720` is 0, returns
`(720-delta, 0)` when `delta > 360`, and returns `(0, delta)` otherwise; in
particular at exactly `delta = 360` it returns `(0, 360)` (advance, never
stall). -/
theorem compute_fast_or_stall_plan_cases (now : DateTime) (s : ClockState) :
    (delta_forward now s = 0 → compute_fast_or_stall_plan now s = (0, 0)) ∧
    (delta_forward now s > 360 →
      compute_fast_or_stall_plan now s = (720 - delta_forward now s, 0)) ∧
    (0 < delta_forward now s → delta_forward now s ≤ 360 →
      compute_fast_or_stall_plan now s = (0, delta_forward now s)) ∧
    (delta_forward now s = 360 → compute_fast_or_stall_plan now s = (0, 360)) := by
  unfold compute_fast_or_stall_plan
  refine ⟨fun h => by simp [h], fun h => ?_, fun h1 h2 => ?_, fun h => by simp [h]⟩
  · rw [if_neg (by omega), if_pos h]
  · rw [if_neg (by omega), if_neg (by omega)]

/-- Witness for C1 at the boundary: system minutes 0 with offset 360 gives
`delta_forward = 360` and the plan advances by 360 rather than stalling. -/
theorem compute_fast_or_stall_plan_cases_witness :
    compute_fast_or_stall_plan ⟨2026, 10, 12, 0, 0⟩
      { initialState with offset_minutes := 360, has_offset := true } = (0, 360) :=
  (compute_fast_or_stall_plan_cases ⟨2026, 10, 12, 0, 0⟩
    { initialState with offset_minutes := 360, has_offset := true }).2.2.2 (by decide)

/-- Claim C2: for every `hh ∈ [0,23]` and `mm ∈ [0,59]`, calling
`set_dial_reading(hh, mm)` and then `current_estimated_dial_minutes` at the
same system time returns `(hh*60+mm) mod 720`; the call also sets
`has_offset` to true and resets `stall_remaining_minutes` to 0. -/
theorem set_dial_reading_then_estimate (hh mm : Nat) (now : DateTime) (s : ClockState)
    (hh_le : hh ≤ 23) (mm_le : mm ≤ 59) :
    current_estimated_dial_minutes now (set_dial_reading hh mm now s) =
      ((hh * 60 + mm : Nat) : Int) % 720 ∧
    (set_dial_reading hh mm now s).has_offset = true ∧
    (set_dial_reading hh mm now s).stall_remaining_minutes = 0 := by
  refine ⟨?_, rfl, rfl⟩
  have h : current_estimated_dial_minutes now (set_dial_reading hh mm now s) =
      (to_12h_minutes now +
        (((hh * 60 + mm : Nat) : Int) % 720 - to_12h_minutes now) % 720) % 720 := rfl
  rw [h]
  omega

/-- Witness for C2: with system minutes 0 (midnight), setting the dial to
`11:55` yields an estimated dial of `715 = (11*60+55) % 720`. -/
theorem set_dial_reading_then_estimate_witness :
    (23 ≤ 23 ∧ 55 ≤ 59) ∧
    current_estimated_dial_minutes ⟨2026, 10, 12, 0, 0⟩
        (set_dial_reading 11 55 ⟨2026, 10, 12, 0, 0⟩ initialState) =
      ((11 * 60 + 55 : Nat) : Int) % 720 :=
  ⟨by decide,
    (set_dial_reading_then_estimate 11 55 ⟨2026, 10, 12, 0, 0⟩ initialState
      (by decide) (by decide)).1⟩

theorem update_offset_has_offset (stalled advanced : Int) (s : ClockState) :
    (update_offset_after_stall_or_advance stalled advanced s).has_offset = s.has_offset := by
  unfold update_offset_after_stall_or_advance
  split <;> [rfl; split <;> rfl]

theorem update_offset_last_correction_hour (stalled advanced : Int) (s : ClockState) :
    (update_offset_after_stall_or_advance stalled advanced s).last_correction_hour =
      s.last_correction_hour := by
  unfold update_offset_after_stall_or_advance
  split <;> [rfl; split <;> rfl]

theorem applyAdvances_spec (n : Nat) (s : ClockState) (h : s.has_offset = true) :
    (applyAdvances n s).has_offset = true ∧
    (applyAdvances n s).offset_minutes % 720 = (s.offset_minutes + n) % 720 := by
  induction n generalizing s with
  | zero => exact ⟨h, by simp [applyAdvances]⟩
  | succ n ih =>
    have hupd : update_offset_after_stall_or_advance 0 1 s =
        { s with offset_minutes := (s.offset_minutes - 0 + 1) % 720 } := by
      unfold update_offset_after_stall_or_advance
      rw [if_neg (by simp), if_neg (by simp [h])]
    obtain ⟨ih1, ih2⟩ := ih (update_offset_after_stall_or_advance 0 1 s)
      (by rw [update_offset_has_offset, h])
    refine ⟨ih1, ?_⟩
    rw [show applyAdvances (n + 1) s =
      applyAdvances n (update_offset_after_stall_or_advance 0 1 s) from rfl, ih2, hupd]
    show ((s.offset_minutes - 0 + 1) % 720 + (n : Int)) % 720 =
      (s.offset_minutes + ((n + 1 : Nat) : Int)) % 720
    omega

/-- Claim C4: with `has_offset` true, system time held fixed, and the dial
`advance` minutes behind (the plan returns `(0, advance)`), applying
`update_offset_after_stall_or_advance(stalled=0, advanced=1)` exactly
`advance` times leaves `compute_fast_or_stall_plan` returning `(0, 0)`. -/
theorem fast_set_advances_align (now : DateTime) (s : ClockState) (a : Int)
    (h : s.has_offset = true)
    (hp : compute_fast_or_stall_plan now s = (0, a)) :
    compute_fast_or_stall_plan now (applyAdvances a.toNat s) = (0, 0) := by
  obtain ⟨h1, h2⟩ := applyAdvances_spec a.toNat s h
  have hdial : current_estimated_dial_minutes now s =
      (to_12h_minutes now + s.offset_minutes) % 720 := by
    simp [current_estimated_dial_minutes, h]
  have hdial' : current_estimated_dial_minutes now (applyAdvances a.toNat s) =
      (to_12h_minutes now + (applyAdvances a.toNat s).offset_minutes) % 720 := by
    simp [current_estimated_dial_minutes, h1]
  have hd : 0 ≤ delta_forward now s ∧ delta_forward now s < 720 := by
    unfold delta_forward
    exact ⟨Int.emod_nonneg _ (by norm_num), Int.emod_lt_of_pos _ (by norm_num)⟩
  have ha : 0 ≤ a ∧ delta_forward now s = a := by
    simp only [compute_fast_or_stall_plan] at hp
    split at hp
    · rw [Prod.mk.injEq] at hp
      exact ⟨by omega, by omega⟩
    · split at hp
      · rw [Prod.mk.injEq] at hp
        exact ⟨by omega, by omega⟩
      · rw [Prod.mk.injEq] at hp
        exact ⟨by omega, by omega⟩
  have htn : ((a.toNat : Int)) = a := Int.toNat_of_nonneg ha.1
  have hdz : delta_forward now (applyAdvances a.toNat s) = 0 := by
    have hds : delta_forward now s = a := ha.2
    unfold delta_forward at hds ⊢
    rw [hdial] at hds
    rw [hdial', htn] at *
    omega
  simp [compute_fast_or_stall_plan, hdz]

/-- Witness for C4: at system minutes 0 with offset 715 the dial is 5 minutes
behind; five advance updates bring the plan back to `(0, 0)`. -/
theorem fast_set_advances_align_witness :
    compute_fast_or_stall_plan ⟨2026, 10, 12, 0, 0⟩
      (applyAdvances (5 : Int).toNat
        { initialState with offset_minutes := 715, has_offset := true }) = (0, 0) :=
  fast_set_advances_align ⟨2026, 10, 12, 0, 0⟩
    { initialState with offset_minutes := 715, has_offset := true } 5 rfl (by decide)

/-- Counterexample to claim C5 as stated: from a start state with
`offset_minutes = 900` (outside `[0,720)`) and `has_offset = false`, the
operation `update_offset_after_stall_or_advance(stalled=0, advanced=1)` takes
its early-return path and does not renormalize, so after this sequence of the
named operations the offset is still 900, outside `[0,720)`. -/
theorem offset_invariant_counterexample :
    (applyOps [StateOp.updateOffset 0 1]
      { initialState with offset_minutes := 900 }).offset_minutes = 900 ∧
    ¬ ((applyOps [StateOp.updateOffset 0 1]
      { initialState with offset_minutes := 900 }).offset_minutes < 720) := by
  decide

/-- Claim C5 (amended): every write to `offset_minutes` by `set_dial_reading`,
`update_offset_after_stall_or_advance`, or the restore from the persisted
store lands in `[0,720)` — each such operation either leaves `offset_minutes`
unchanged (its no-op paths) or renormalizes it mod 720 — and therefore the
invariant `offset_minutes ∈ [0,720)` is preserved by any sequence of these
operations from any start state already satisfying it, in particular from the
program's initial state. -/
theorem offset_invariant_preserved :
    (∀ (op : StateOp) (s : ClockState),
      (applyOp op s).offset_minutes = s.offset_minutes ∨
      (0 ≤ (applyOp op s).offset_minutes ∧ (applyOp op s).offset_minutes < 720)) ∧
    (∀ (ops : List StateOp) (s : ClockState),
      0 ≤ s.offset_minutes → s.offset_minutes < 720 →
      0 ≤ (applyOps ops s).offset_minutes ∧ (applyOps ops s).offset_minutes < 720) := by
  have hop : ∀ (op : StateOp) (s : ClockState),
      (applyOp op s).offset_minutes = s.offset_minutes ∨
      (0 ≤ (applyOp op s).offset_minutes ∧ (applyOp op s).offset_minutes < 720) := by
    intro op s
    cases op with
    | setDial hh mm now =>
      right
      show 0 ≤ (((hh * 60 + mm : Nat) : Int) % 720 - to_12h_minutes now) % 720 ∧
        (((hh * 60 + mm : Nat) : Int) % 720 - to_12h_minutes now) % 720 < 720
      omega
    | updateOffset st ad =>
      rw [show applyOp (StateOp.updateOffset st ad) s =
        update_offset_after_stall_or_advance st ad s from rfl]
      unfold update_offset_after_stall_or_advance
      split
      · exact Or.inl rfl
      · split
        · exact Or.inl rfl
        · right
          show 0 ≤ (s.offset_minutes - st + ad) % 720 ∧ (s.offset_minutes - st + ad) % 720 < 720
          omega
    | restore d =>
      cases d with
      | none => exact Or.inl rfl
      | some p =>
        obtain ⟨o, hb⟩ := p
        right
        show 0 ≤ o % 720 ∧ o % 720 < 720
        omega
  refine ⟨hop, ?_⟩
  intro ops
  induction ops with
  | nil => exact fun s h1 h2 => ⟨h1, h2⟩
  | cons op rest ih =>
    intro s h1 h2
    have := hop op s
    exact ih (applyOp op s) (by omega) (by omega)

/-- Witness for C5 (amended): a dial set followed by a stall update and a
restore failure keeps the offset inside `[0,720)` starting from the initial
state. -/
theorem offset_invariant_preserved_witness :
    0 ≤ (applyOps [StateOp.setDial 11 55 ⟨2026, 10, 12, 0, 0⟩,
        StateOp.updateOffset 1 0, StateOp.restore none]
        initialState).offset_minutes ∧
    (applyOps [StateOp.setDial 11 55 ⟨2026, 10, 12, 0, 0⟩,
        StateOp.updateOffset 1 0, StateOp.restore none]
        initialState).offset_minutes < 720 :=
  offset_invariant_preserved.2
    [StateOp.setDial 11 55 ⟨2026, 10, 12, 0, 0⟩,
      StateOp.updateOffset 1 0, StateOp.restore none]
    initialState (by decide) (by decide)

theorem run_burst_fired (now : DateTime) (s : ClockState) :
    (run_correction_burst_once_per_hour now s).2 ≠ 0 →
    (run_correction_burst_once_per_hour now s).1.last_correction_hour = some (hourKey now) := by
  unfold run_correction_burst_once_per_hour
  split
  · intro h; exact absurd rfl h
  · split
    · intro h; exact absurd rfl h
    · intro _; rfl

theorem run_burst_not_fired (now : DateTime) (s : ClockState) :
    (run_correction_burst_once_per_hour now s).2 = 0 →
    (run_correction_burst_once_per_hour now s).1 = s := by
  unfold run_correction_burst_once_per_hour
  split
  · intro _; rfl
  · split
    · intro _; rfl
    · intro h; exact absurd h (by simp [CORRECTION_PULSES])

theorem run_burst_dedupe (now : DateTime) (s : ClockState)
    (h : s.last_correction_hour = some (hourKey now)) :
    (run_correction_burst_once_per_hour now s).2 = 0 := by
  unfold run_correction_burst_once_per_hour
  split <;> simp_all

theorem minute_tick_fired (t : DateTime) (s : ClockState) :
    (minute_tick_actions t s).2 ≠ 0 →
    (minute_tick_actions t s).1.last_correction_hour = some (hourKey t) := by
  simp only [minute_tick_actions]
  split
  · intro h; exact absurd rfl h
  · split
    · intro h; exact absurd rfl h
    · split
      · split
        · exact run_burst_fired t _
        · intro h; exact absurd rfl h
      · split
        · exact run_burst_fired t _
        · intro h; exact absurd rfl h

theorem minute_tick_not_fired (t : DateTime) (s : ClockState) :
    (minute_tick_actions t s).2 = 0 →
    (minute_tick_actions t s).1.last_correction_hour = s.last_correction_hour := by
  simp only [minute_tick_actions]
  split
  · intro _; rfl
  · split
    · intro _; rfl
    · split
      · split
        · intro h
          rw [run_burst_not_fired t _ h, update_offset_last_correction_hour]
        · intro _
          rw [update_offset_last_correction_hour]
      · split
        · intro h
          rw [run_burst_not_fired t _ h]
          split <;> rfl
        · intro _
          split <;> rfl

theorem minute_tick_dedupe (t : DateTime) (s : ClockState)
    (h : s.last_correction_hour = some (hourKey t)) :
    (minute_tick_actions t s).2 = 0 := by
  simp only [minute_tick_actions]
  split
  · rfl
  · split
    · rfl
    · split
      · split
        · exact run_burst_dedupe t _ (by rw [update_offset_last_correction_hour]; exact h)
        · rfl
      · split
        · exact run_burst_dedupe t _ (by split <;> exact h)
        · rfl

theorem burst_count_zero_of_hour_done (k : Nat × Nat × Nat × Nat) :
    ∀ (ts : List DateTime) (s : ClockState), (∀ t ∈ ts, hourKey t = k) →
      s.last_correction_hour = some k → minuteTicksBurstCount ts s = 0 := by
  intro ts
  induction ts with
  | nil => intro s _ _; rfl
  | cons t rest ih =>
    intro s hall hk
    have ht : hourKey t = k := hall t (List.mem_cons_self t rest)
    have hz : (minute_tick_actions t s).2 = 0 :=
      minute_tick_dedupe t s (by rw [ht]; exact hk)
    have hrest : (minute_tick_actions t s).1.last_correction_hour = some k := by
      rw [minute_tick_not_fired t s hz]; exact hk
    show (if (minute_tick_actions t s).2 ≠ 0 then 1 else 0) +
      minuteTicksBurstCount rest (minute_tick_actions t s).1 = 0
    rw [if_neg (by simp [hz]),
      ih (minute_tick_actions t s).1 (fun u hu => hall u (List.mem_cons_of_mem t hu)) hrest]

/-- Claim C8: for every calendar hour, the hourly correction burst fires at
most once, even if the minute-tick entry point is invoked multiple times with
minute 59 within that hour: the dedupe key `last_correction_hour` makes every
invocation after the one that fired a no-op for the burst. -/
theorem correction_burst_at_most_once_per_hour (ts : List DateTime)
    (k : Nat × Nat × Nat × Nat) (s : ClockState)
    (hall : ∀ t ∈ ts, hourKey t = k) :
    minuteTicksBurstCount ts s ≤ 1 := by
  induction ts generalizing s with
  | nil => exact Nat.zero_le 1
  | cons t rest ih =>
    have ht : hourKey t = k := hall t (List.mem_cons_self t rest)
    have hrest : ∀ u ∈ rest, hourKey u = k := fun u hu => hall u (List.mem_cons_of_mem t hu)
    show (if (minute_tick_actions t s).2 ≠ 0 then 1 else 0) +
      minuteTicksBurstCount rest (minute_tick_actions t s).1 ≤ 1
    by_cases hz : (minute_tick_actions t s).2 = 0
    · rw [if_neg (by simp [hz])]
      simpa using ih (minute_tick_actions t s).1 hrest
    · rw [if_pos hz]
      have hk : (minute_tick_actions t s).1.last_correction_hour = some k := by
        rw [minute_tick_fired t s hz, ht]
      rw [burst_count_zero_of_hour_done k rest (minute_tick_actions t s).1 hrest hk]

/-- Witness for C8: two minute-59 invocations in the same hour from the
initial state fire at most one burst. -/
theorem correction_burst_at_most_once_per_hour_witness :
    minuteTicksBurstCount
      [⟨2026, 10, 12, 14, 59⟩, ⟨2026, 10, 12, 14, 59⟩] initialState ≤ 1 :=
  correction_burst_at_most_once_per_hour
    [⟨2026, 10, 12, 14, 59⟩, ⟨2026, 10, 12, 14, 59⟩] (2026, 10, 12, 14) initialState
    (by decide)

/-- Counterexample to claim C7 as stated: with the burst already fired during
the current calendar hour (`last_correction_hour` equal to the current hour
key), selecting the correction-burst target of the ad-hoc test emits 0 pulses,
not the 17-pulse burst. -/
theorem pulse_test_corr_counterexample :
    (pulse_test TestTarget.CORR ⟨2026, 10, 12, 14, 30⟩
      { initialState with last_correction_hour := some (2026, 10, 12, 14) }).2 = 0 ∧
    (pulse_test TestTarget.CORR ⟨2026, 10, 12, 14, 30⟩
      { initialState with last_correction_hour := some (2026, 10, 12, 14) }).2 ≠
      CORRECTION_PULSES := by
  decide

/-- Claim C7 (amended): selecting the correction-burst target of the ad-hoc
test forces the minute to 59, so the burst can fire at any minute of the hour;
but it remains subject to the once-per-hour dedupe: when `last_correction_hour`
already equals the current hour key the test is a no-op, and when it fires it
records the current hour key (suppressing the scheduled `:59` burst of that
hour). -/
theorem pulse_test_corr_fires_unless_hour_done (now : DateTime) (s : ClockState) :
    (s.last_correction_hour ≠ some (hourKey now) →
      pulse_test TestTarget.CORR now s =
        ({ s with last_correction_hour := some (hourKey now), relayA := false },
          CORRECTION_PULSES)) ∧
    (s.last_correction_hour = some (hourKey now) →
      pulse_test TestTarget.CORR now s = (s, 0)) := by
  have hred : pulse_test TestTarget.CORR now s =
      run_correction_burst_once_per_hour { now with minute := 59 } s := rfl
  have hk : hourKey { now with minute := 59 } = hourKey now := rfl
  constructor
  · intro h
    rw [hred]
    unfold run_correction_burst_once_per_hour
    rw [hk, if_neg (by simp), if_neg h]
  · intro h
    have h2 : (run_correction_burst_once_per_hour { now with minute := 59 } s).2 = 0 :=
      run_burst_dedupe { now with minute := 59 } s h
    have h1 := run_burst_not_fired { now with minute := 59 } s h2
    rw [hred]
    exact Prod.ext h1 h2

/-- Witness for C7 (amended): from the initial state (no burst recorded), the
test target fires the 17-pulse burst at minute 30 and records the hour. -/
theorem pulse_test_corr_fires_unless_hour_done_witness :
    pulse_test TestTarget.CORR ⟨2026, 10, 12, 14, 30⟩ initialState =
      ({ initialState with
          last_correction_hour := some (2026, 10, 12, 14)
          relayA := false }, CORRECTION_PULSES) :=
  (pulse_test_corr_fires_unless_hour_done ⟨2026, 10, 12, 14, 30⟩ initialState).1 (by decide)

theorem fastSetLoop_fst_ne_notStarted (env : Nat → IterEnv) :
    ∀ (fuel i p : Nat) (s : ClockState), (fastSetLoop env fuel i p s).1 ≠ .notStarted := by
  intro fuel
  induction fuel with
  | zero => intro i p s; simp [fastSetLoop]
  | succ n ih =>
    intro i p s
    simp only [fastSetLoop]
    split
    · simp
    · split
      · simp
      · split
        · simp
        · split
          · simp
          · split
            · simp
            · exact ih _ _ _

theorem fastSetLoop_fst_ne_fuelOut (env : Nat → IterEnv) :
    ∀ (fuel i p : Nat) (s : ClockState), p ≤ FAST_SET_MAX_PULSES →
      FAST_SET_MAX_PULSES < fuel + p → (fastSetLoop env fuel i p s).1 ≠ .fuelOut := by
  intro fuel
  induction fuel with
  | zero => intro i p s h1 h2; exact absurd h2 (by omega)
  | succ n ih =>
    intro i p s h1 h2
    simp only [fastSetLoop]
    split
    · simp
    · split
      · simp
      · split
        · simp
        · split
          · simp
          · split
            · simp
            · exact ih (i + 1) (p + 1) _ (by omega) (by omega)

theorem fastSetTry_fst_ne_notStarted (fuel : Nat) (env : Nat → IterEnv) (s : ClockState) :
    (fastSetTry fuel env s).1 ≠ .notStarted := by
  simp only [fastSetTry]
  split
  · simp
  · split
    · simp
    · exact fastSetLoop_fst_ne_notStarted env fuel 1 0 _

theorem fastSetTry_fst_ne_fuelOut (fuel : Nat) (env : Nat → IterEnv) (s : ClockState)
    (hfuel : FAST_SET_MAX_PULSES < fuel) :
    (fastSetTry fuel env s).1 ≠ .fuelOut := by
  simp only [fastSetTry]
  split
  · simp
  · split
    · simp
    · exact fastSetLoop_fst_ne_fuelOut env fuel 1 0 _ (Nat.zero_le _) (by omega)

/-- Counterexample to claim C3 as stated: with a session running, a second
fast-set request does change the session state (it raises
`fast_set_requested`), and once the running session ends (clearing
`fast_set_running`) the daemon loop's next poll claims that pending request,
starting a new run — so the second request is queued, not a no-op. -/
theorem fast_set_second_request_counterexample :
    fast_set { initialState with fast_set_running := true } ≠
      { initialState with fast_set_running := true } ∧
    (maybe_handle_fast_set 401 (fun _ => ⟨0, false, ⟨2026, 10, 12, 0, 0⟩⟩)
      { (fast_set { initialState with fast_set_running := true }) with
          fast_set_running := false }).1 ≠ FastSetOutcome.notStarted := by
  constructor
  · decide
  · unfold maybe_handle_fast_set
    rw [if_neg (by simp [fast_set])]
    exact fastSetTry_fst_ne_notStarted 401 _ _

/-- Claim C3 (amended): while a session is running, a second fast-set request
does not start a concurrent session — `maybe_handle_fast_set` is a no-op as
long as `fast_set_running` holds — but the request is recorded
(`fast_set_requested` is set, `fast_set_cancel_requested` cleared, the status
text overwritten), so it is queued: after the running session ends, the next
daemon-loop poll claims it and starts a new session. -/
theorem fast_set_second_request_queued (s : ClockState) (fuel : Nat) (env : Nat → IterEnv)
    (h : s.fast_set_running = true) :
    (fast_set s).fast_set_requested = true ∧
    (fast_set s).fast_set_cancel_requested = false ∧
    maybe_handle_fast_set fuel env (fast_set s) = (.notStarted, fast_set s) ∧
    (∀ (fuel2 : Nat) (env2 : Nat → IterEnv),
      (maybe_handle_fast_set fuel2 env2
        { fast_set s with fast_set_running := false }).1 ≠ .notStarted) := by
  refine ⟨rfl, rfl, ?_, ?_⟩
  · unfold maybe_handle_fast_set
    rw [if_pos (Or.inr (show (fast_set s).fast_set_running = true from h))]
  · intro fuel2 env2
    unfold maybe_handle_fast_set
    rw [if_neg (by simp [fast_set])]
    exact fastSetTry_fst_ne_notStarted fuel2 _ _

/-- Witness for C3 (amended), instantiated at a running session over the
initial state. -/
theorem fast_set_second_request_queued_witness :
    (fast_set { initialState with fast_set_running := true }).fast_set_requested = true ∧
    maybe_handle_fast_set 7 (fun _ => ⟨0, false, ⟨2026, 10, 12, 0, 0⟩⟩)
        (fast_set { initialState with fast_set_running := true }) =
      (FastSetOutcome.notStarted, fast_set { initialState with fast_set_running := true }) :=
  ⟨(fast_set_second_request_queued { initialState with fast_set_running := true }
      7 (fun _ => ⟨0, false, ⟨2026, 10, 12, 0, 0⟩⟩) rfl).1,
    (fast_set_second_request_queued { initialState with fast_set_running := true }
      7 (fun _ => ⟨0, false, ⟨2026, 10, 12, 0, 0⟩⟩) rfl).2.2.1⟩

/-- Claim C6: every termination path of a fast-set session (completed,
already-aligned, stalling hand-off, cancelled, timeout, pulse-cap exceeded)
forces both outputs off and returns the session to idle, clearing
`fast_set_running` and `fast_set_cancel_requested`; no error path leaves an
output energized. With fuel above the pulse cap the bounded model also rules
out any other way for the session to end. -/
theorem fast_set_terminal_paths_safe (fuel : Nat) (env : Nat → IterEnv) (s : ClockState)
    (hreq : s.fast_set_requested = true) (hrun : s.fast_set_running = false)
    (hfuel : FAST_SET_MAX_PULSES < fuel) :
    (maybe_handle_fast_set fuel env s).1 ≠ .notStarted ∧
    (maybe_handle_fast_set fuel env s).1 ≠ .fuelOut ∧
    (maybe_handle_fast_set fuel env s).2.relayA = false ∧
    (maybe_handle_fast_set fuel env s).2.relayB = false ∧
    (maybe_handle_fast_set fuel env s).2.fast_set_running = false ∧
    (maybe_handle_fast_set fuel env s).2.fast_set_cancel_requested = false := by
  unfold maybe_handle_fast_set
  rw [if_neg (by simp [hreq, hrun])]
  exact ⟨fastSetTry_fst_ne_notStarted fuel env _,
    fastSetTry_fst_ne_fuelOut fuel env _ hfuel, rfl, rfl, rfl, rfl⟩

/-- Witness for C6: a requested, not-running session from the initial state
with generous fuel ends with both relays off and the session idle. -/
theorem fast_set_terminal_paths_safe_witness :
    (maybe_handle_fast_set 401 (fun _ => ⟨0, false, ⟨2026, 10, 12, 0, 0⟩⟩)
      { initialState with fast_set_requested := true }).1 ≠ FastSetOutcome.notStarted ∧
    (maybe_handle_fast_set 401 (fun _ => ⟨0, false, ⟨2026, 10, 12, 0, 0⟩⟩)
      { initialState with fast_set_requested := true }).1 ≠ FastSetOutcome.fuelOut ∧
    (maybe_handle_fast_set 401 (fun _ => ⟨0, false, ⟨2026, 10, 12, 0, 0⟩⟩)
      { initialState with fast_set_requested := true }).2.relayA = false ∧
    (maybe_handle_fast_set 401 (fun _ => ⟨0, false, ⟨2026, 10, 12, 0, 0⟩⟩)
      { initialState with fast_set_requested := true }).2.relayB = false ∧
    (maybe_handle_fast_set 401 (fun _ => ⟨0, false, ⟨2026, 10, 12, 0, 0⟩⟩)
      { initialState with fast_set_requested := true }).2.fast_set_running = false ∧
    (maybe_handle_fast_set 401 (fun _ => ⟨0, false, ⟨2026, 10, 12, 0, 0⟩⟩)
      { initialState with fast_set_requested := true }).2.fast_set_cancel_requested = false :=
  fast_set_terminal_paths_safe 401 (fun _ => ⟨0, false, ⟨2026, 10, 12, 0, 0⟩⟩)
    { initialState with fast_set_requested := true } rfl rfl (by decide)

/-- Claim C10: a stop request discards a pending fast-set request that has not
yet been claimed by the daemon loop: the stop handler clears
`fast_set_requested` in addition to setting `fast_set_cancel_requested` and
forcing both outputs off, so after a stop and before any new request,
`maybe_handle_fast_set` starts no session and leaves the state unchanged. -/
theorem stop_discards_pending_request (s : ClockState) (fuel : Nat) (env : Nat → IterEnv) :
    (stop_correction s).fast_set_requested = false ∧
    (stop_correction s).fast_set_cancel_requested = true ∧
    (stop_correction s).relayA = false ∧
    (stop_correction s).relayB = false ∧
    maybe_handle_fast_set fuel env (stop_correction s) =
      (.notStarted, stop_correction s) := by
  refine ⟨rfl, rfl, rfl, rfl, ?_⟩
  unfold maybe_handle_fast_set
  rw [if_pos (Or.inl (by simp [stop_correction, all_relays_off]))]

/-- Claim C9 is violated by the code (code bug): at a minute tick with a
positive stall counter and no session running, `minute_tick_actions` acquires
the shared lock and, while still inside that critical section, calls
`update_offset_after_stall_or_advance`, which acquires the same lock again —
a nested acquisition of the non-reentrant lock (self-deadlock). -/
theorem minute_tick_stall_branch_nests_lock :
    hasNested (minuteTickTrace ⟨2026, 10, 12, 14, 5⟩
      { initialState with has_offset := true, stall_remaining_minutes := 1 }) 0 = true := by
  decide
